import Mathlib

set_option maxRecDepth 8192

/- Shallow embedding of the quiz engine of src/bot.py from the
polish-trainer-bot repository.  Strings are Lean `String`s; Python's
Unicode-wide `str.strip` / `str.lower` / NFD-decomposition-plus-mark-removal
are modelled character-wise on the repertoire that occurs in the repository's
data (ASCII, Polish accented letters, Cyrillic).  Note that `ł` has no NFD
decomposition, so `unicodedata`-based accent stripping leaves it unchanged,
and the model does the same. -/

/-- Whitespace test modelling the default behaviour of Python `str.strip` and
`str.split` on the ASCII whitespace characters. -/
def isWs (c : Char) : Bool :=
  c == ' ' || c == '\t' || c == '\n' || c == '\r' ||
    c == Char.ofNat 11 || c == Char.ofNat 12

/-- Python `str.lower`, modelled on ASCII letters, Polish accented letters and
Cyrillic letters (the repertoire of the repository's data). -/
def lowerChar (c : Char) : Char :=
  if 'A' ≤ c ∧ c ≤ 'Z' then Char.ofNat (c.toNat + 32)
  else if 'А' ≤ c ∧ c ≤ 'Я' then Char.ofNat (c.toNat + 32)
  else
    match c with
    | 'Ą' => 'ą'
    | 'Ć' => 'ć'
    | 'Ę' => 'ę'
    | 'Ł' => 'ł'
    | 'Ń' => 'ń'
    | 'Ó' => 'ó'
    | 'Ś' => 'ś'
    | 'Ź' => 'ź'
    | 'Ż' => 'ż'
    | 'Ё' => 'ё'
    | c => c

/-- Unicode NFD decomposition followed by removal of combining marks
(category Mn), modelled character-wise on the repertoire of the repository.
Polish `ł` does not decompose under NFD, so it is (correctly) not mapped. -/
def stripAccentChar (c : Char) : Char :=
  match c with
  | 'ą' => 'a'
  | 'ć' => 'c'
  | 'ę' => 'e'
  | 'ń' => 'n'
  | 'ó' => 'o'
  | 'ś' => 's'
  | 'ź' => 'z'
  | 'ż' => 'z'
  | 'й' => 'и'
  | 'ё' => 'е'
  | c => c

/-- Python `str.strip` on a character list. -/
def trimChars (cs : List Char) : List Char :=
  ((cs.dropWhile isWs).reverse.dropWhile isWs).reverse

/-- Python `str.lower` on a whole string. -/
def lowerStr (s : String) : String :=
  (s.toList.map lowerChar).asString

/-- Embedding of `_strip_accents` (src/bot.py lines 39-42):
`(s or "").strip().lower()` followed by NFD normalisation and removal of
combining marks. -/
def _strip_accents (s : String) : String :=
  (((trimChars s.toList).map lowerChar).map stripAccentChar).asString

/-- Embedding of the `_NUM_WORD` table (src/bot.py lines 46-111): Polish
numeral words (with and without diacritics) mapped to their values. -/
def _NUM_WORD : List (String × Nat) :=
  [("zero", 0), ("jeden", 1), ("dwa", 2), ("trzy", 3), ("cztery", 4),
   ("piec", 5), ("pięć", 5), ("szesc", 6), ("sześć", 6), ("siedem", 7),
   ("osiem", 8), ("dziewiec", 9), ("dziewięć", 9), ("dziesiec", 10),
   ("dziesięć", 10), ("jedenascie", 11), ("jedenaście", 11),
   ("dwanascie", 12), ("dwanaście", 12), ("trzynascie", 13),
   ("trzynaście", 13), ("czternascie", 14), ("czternaście", 14),
   ("pietnascie", 15), ("piętnaście", 15), ("szesnascie", 16),
   ("szesnaście", 16), ("siedemnascie", 17), ("siedemnaście", 17),
   ("osiemnascie", 18), ("osiemnaście", 18), ("dziewietnascie", 19),
   ("dziewiętnaście", 19), ("dwadziescia", 20), ("dwadzieścia", 20),
   ("trzydziesci", 30), ("trzydzieści", 30), ("czterdziesci", 40),
   ("czterdzieści", 40), ("piecdziesiat", 50), ("pięćdziesiąt", 50),
   ("szescdziesiat", 60), ("sześćdziesiąt", 60), ("siedemdziesiat", 70),
   ("siedemdziesiąt", 70), ("osiemdziesiat", 80), ("osiemdziesiąt", 80),
   ("dziewiecdziesiat", 90), ("dziewięćdziesiąt", 90), ("sto", 100),
   ("dwiescie", 200), ("dwieście", 200), ("trzysta", 300),
   ("czterysta", 400), ("piecset", 500), ("pięćset", 500),
   ("szescset", 600), ("sześćset", 600), ("siedemset", 700),
   ("osiemset", 800), ("dziewiecset", 900), ("dziewięćset", 900),
   ("tysiac", 1000), ("tysiąc", 1000)]

/-- Python dict lookup on the numeral table (`t in _NUM_WORD` /
`_NUM_WORD[t]`), as first-match association-list lookup. -/
def numLookup (t : String) : List (String × Nat) → Option Nat
  | [] => none
  | (k, v) :: rest => if t = k then some v else numLookup t rest

/-- Python `t.split()` (split on whitespace runs, dropping empty parts),
worker loop carrying the reversed current word. -/
def splitWsGo : List Char → List Char → List String
  | acc, [] => if acc = [] then [] else [acc.reverse.asString]
  | acc, c :: rest =>
    if isWs c then
      if acc = [] then splitWsGo [] rest
      else acc.reverse.asString :: splitWsGo [] rest
    else splitWsGo (c :: acc) rest

/-- Python `t.split()` on a string. -/
def splitWs (s : String) : List String :=
  splitWsGo [] s.toList

/-- The summing loop of `_word_to_number_pl` (src/bot.py lines 121-126):
add up the table values of the words, failing if any word is unknown. -/
def sumParts : List String → Option Nat
  | [] => some 0
  | p :: ps =>
    match numLookup p _NUM_WORD with
    | none => none
    | some v => (sumParts ps).map (fun t => v + t)

/-- Embedding of `_word_to_number_pl` (src/bot.py lines 114-127). The final
`return total if total else None` maps a zero total to `none`. -/
def _word_to_number_pl (s : String) : Option Nat :=
  let t := _strip_accents s
  match numLookup t _NUM_WORD with
  | some v => some v
  | none =>
    let parts := splitWs t
    if parts = [] then none
    else
      match sumParts parts with
      | none => none
      | some total => if total = 0 then none else some total

/-- Python set insertion (`answers.add(x)`) on a duplicate-free list. -/
def insertIfAbsent (x : String) (l : List String) : List String :=
  if x ∈ l then l else l ++ [x]

/-- Lexicographic comparison of character lists by code point, modelling how
Python compares the sort keys of `sorted(..., key=_strip_accents)`. -/
def lexLe : List Char → List Char → Bool
  | [], _ => true
  | _ :: _, [] => false
  | a :: as, b :: bs => if a = b then lexLe as bs else decide (a < b)

/-- Ordering of answers by their folded form (`key=_strip_accents`). -/
def keyLe (a b : String) : Bool :=
  lexLe (_strip_accents a).toList (_strip_accents b).toList

/-- Stable insertion into a list sorted by `keyLe`. -/
def insertSorted (x : String) : List String → List String
  | [] => [x]
  | y :: ys => if keyLe x y then x :: y :: ys else y :: insertSorted x ys

/-- Python `sorted(answers, key=_strip_accents)` as stable insertion sort. -/
def sortByKey : List String → List String
  | [] => []
  | x :: xs => insertSorted x (sortByKey xs)

/-- Embedding of `valid_answers_pl` (src/bot.py lines 130-139): the expected
word, its accent-free form when it differs from the lower-cased original, and
the decimal form when the word parses as a numeral; sorted by folded form. -/
def valid_answers_pl (expected_pl : String) : List String :=
  let answers := [expected_pl]
  let nodiac := _strip_accents expected_pl
  let answers :=
    if nodiac ≠ lowerStr expected_pl then insertIfAbsent nodiac answers
    else answers
  let answers :=
    match _word_to_number_pl expected_pl with
    | some n => insertIfAbsent (toString n) answers
    | none => answers
  sortByKey answers

/-- Embedding of `equals_relaxed` (src/bot.py lines 142-144): the folded user
text is compared against the folded forms of the valid answers. -/
def equals_relaxed (user_text : String) (valid : List String) : Bool :=
  valid.any (fun v => _strip_accents v = _strip_accents user_text)

/-- Python `str.isdigit` on ASCII digits (the only digit forms produced by
`valid_answers_pl`). -/
def isDigitStr (s : String) : Bool :=
  !s.toList.isEmpty && s.toList.all (fun c => '0' ≤ c ∧ c ≤ '9')

/-- Quiz direction (`"pl_ru"` / `"ru_pl"` in src/bot.py); `pl_ru` is the
spec's FORWARD (source term shown, translation expected). -/
inductive Direction
  | pl_ru
  | ru_pl
deriving DecidableEq

/-- One quiz session (the per-user dict stored in `trainer.quiz_sessions`
by `quiz_start`, src/bot.py lines 859-865). -/
structure Session where
  words : List (String × String)
  current_question : Nat
  score : Nat
  total : Nat
  direction : Direction
deriving DecidableEq

/-- Per-user statistics (the dict created by `get_user_stats`,
src/bot.py lines 315-322). -/
structure Stats where
  total_questions : Nat
  correct_answers : Nat
  quiz_count : Nat
deriving DecidableEq

/-- The per-user portion of the bot's mutable state: the optional quiz
session and the statistics record. -/
structure BotState where
  session : Option Session
  stats : Stats
deriving DecidableEq

/-- Errors of the engine, named as in the specification: `emptyPool` models
the `"❌ Brak słów w wybranym zakresie."` early return of `quiz_start`, and
`noActiveSession` the `"❌ Brak sesji quizu."` early returns of `on_answer`
and `skip_q`. -/
inductive QuizError
  | emptyPool
  | noActiveSession
deriving DecidableEq

/-- Embedding of `PolishTrainerBot.update_user_score`
(src/bot.py lines 324-328). -/
def update_user_score (s : Stats) (is_correct : Bool) : Stats :=
  { s with
    total_questions := s.total_questions + 1,
    correct_answers :=
      if is_correct then s.correct_answers + 1 else s.correct_answers }

/-- First-match association-list lookup modelling Python dict access on the
vocabulary (`w in self.vocabulary` / `self.vocabulary[w]`). -/
def lookupStr (k : String) : List (String × String) → Option String
  | [] => none
  | (a, b) :: rest => if k = a then some b else lookupStr k rest

/-- First-match association-list lookup modelling `self.categories.get(ck, [])`. -/
def catLookup (k : String) : List (String × List String) → Option (List String)
  | [] => none
  | (a, ws) :: rest => if k = a then some ws else catLookup k rest

/-- Embedding of `PolishTrainerBot.flat_items` (src/bot.py lines 335-346).
`pool_keys` of `none` — and, because Python tests `if pool_keys:` for
truthiness, also `some []` — yields every vocabulary pair; otherwise the
words of the named categories that are present in the vocabulary. -/
def flat_items (vocabulary : List (String × String))
    (categories : List (String × List String))
    (pool_keys : Option (List String)) : List (String × String) :=
  match pool_keys with
  | none => vocabulary
  | some [] => vocabulary
  | some ks =>
    ks.flatMap (fun ck =>
      ((catLookup ck categories).getD []).filterMap (fun w =>
        (lookupStr w vocabulary).map (fun ru => (w, ru))))

/-- Embedding of `quiz_start` (src/bot.py lines 841-866).  The in-place
`random.shuffle(words)` is abstracted as an explicit `shuffle` function;
theorems assume it permutes its input.  On an empty pool the handler reports
the error and creates no session. -/
def quiz_start (shuffle : List (String × String) → List (String × String))
    (quiz_len_pref : Nat) (direction : Direction)
    (pool : List (String × String)) (st : BotState) :
    Except QuizError BotState :=
  if pool = [] then .error .emptyPool
  else
    let quiz_len := min quiz_len_pref pool.length
    let words := (shuffle pool).take quiz_len
    .ok { st with
          session := some
            { words := words, current_question := 0, score := 0,
              total := words.length, direction := direction } }

/-- The accepted-answer list computed by `ask_question`
(src/bot.py lines 877-885) for the current question: for `pl_ru` the
translation plus the digit forms among `valid_answers_pl(pl)`, for `ru_pl`
all of `valid_answers_pl(pl)`. -/
def question_valid (sess : Session) : List String :=
  match sess.words[sess.current_question]? with
  | none => []
  | some pr =>
    match sess.direction with
    | .pl_ru => pr.2 :: (valid_answers_pl pr.1).filter isDigitStr
    | .ru_pl => valid_answers_pl pr.1

/-- The term `ask_question` displays for the current question
(src/bot.py lines 877-885): the Polish word for `pl_ru`, the translation
for `ru_pl`. -/
def question_display (sess : Session) : Option String :=
  (sess.words[sess.current_question]?).map (fun pr =>
    match sess.direction with
    | .pl_ru => pr.1
    | .ru_pl => pr.2)

/-- Embedding of `finish_quiz` (src/bot.py lines 959-971): increments the
user's quiz counter and destroys the session. -/
def finish_quiz (st : BotState) : BotState :=
  match st.session with
  | none => st
  | some _ =>
    { st with
      stats := { st.stats with quiz_count := st.stats.quiz_count + 1 },
      session := none }

/-- Embedding of `on_answer` (src/bot.py lines 896-926): grade the text
against the cached accepted-answer list, update the user statistics, score
and advance the session, and finish the quiz when the index reaches the
total. -/
def on_answer (valid : List String) (user_text : String) (st : BotState) :
    Except QuizError BotState :=
  match st.session with
  | none => .error .noActiveSession
  | some sess =>
    let ok := equals_relaxed user_text valid
    let stats := update_user_score st.stats ok
    let sess :=
      { sess with
        score := if ok then sess.score + 1 else sess.score,
        current_question := sess.current_question + 1 }
    if sess.total ≤ sess.current_question then
      .ok (finish_quiz { st with stats := stats, session := some sess })
    else
      .ok { st with stats := stats, session := some sess }

/-- Embedding of `skip_q` (src/bot.py lines 929-944): advance the session
without grading or statistics update, and finish the quiz when the index
reaches the total. -/
def skip_q (st : BotState) : Except QuizError BotState :=
  match st.session with
  | none => .error .noActiveSession
  | some sess =>
    let sess := { sess with current_question := sess.current_question + 1 }
    if sess.total ≤ sess.current_question then
      .ok (finish_quiz { st with session := some sess })
    else
      .ok { st with session := some sess }

/-- One user interaction during a quiz: a typed answer (handled by
`on_answer` with the accepted-answer list that `ask_question` cached for the
current question) or a press of the skip button (handled by `skip_q`). -/
inductive QInput
  | ans (t : String)
  | skip
deriving DecidableEq

/-- Dispatch one interaction to the corresponding handler. -/
def quiz_step (inp : QInput) (st : BotState) : Except QuizError BotState :=
  match inp with
  | .ans t =>
    on_answer
      (match st.session with
       | some sess => question_valid sess
       | none => []) t st
  | .skip => skip_q st

/-- Run a sequence of interactions, stopping at the first error. -/
def runSteps : List QInput → BotState → Except QuizError BotState
  | [], st => .ok st
  | i :: is, st =>
    match quiz_step i st with
    | .error e => .error e
    | .ok st' => runSteps is st'

/- Helper lemmas about the list machinery of the embedding. -/

/-- Inserting into a key-sorted list permutes consing. -/
theorem insertSorted_perm (x : String) (l : List String) :
    (insertSorted x l).Perm (x :: l) := by
  induction l with
  | nil => simp [insertSorted]
  | cons y ys ih =>
    simp only [insertSorted]
    by_cases h : keyLe x y
    · simp [h]
    · rw [if_neg h]
      exact (ih.cons y).trans (List.Perm.swap x y ys)

/-- The answer sort is a permutation. -/
theorem sortByKey_perm (l : List String) : (sortByKey l).Perm l := by
  induction l with
  | nil => simp [sortByKey]
  | cons x xs ih =>
    exact (insertSorted_perm x (sortByKey xs)).trans (List.Perm.cons x ih)

/-- Membership is unchanged by the answer sort. -/
theorem mem_sortByKey {a : String} {l : List String} :
    a ∈ sortByKey l ↔ a ∈ l :=
  (sortByKey_perm l).mem_iff

/-- Set insertion contains the inserted element. -/
theorem mem_insertIfAbsent_self (x : String) (l : List String) :
    x ∈ insertIfAbsent x l := by
  unfold insertIfAbsent
  by_cases h : x ∈ l <;> simp [h]

/-- Set insertion keeps the previous members. -/
theorem mem_insertIfAbsent_of_mem {a : String} (x : String)
    {l : List String} (h : a ∈ l) : a ∈ insertIfAbsent x l := by
  unfold insertIfAbsent
  by_cases hx : x ∈ l <;> simp [hx, h]

/-- Members of a set insertion are old members or the inserted element. -/
theorem mem_of_mem_insertIfAbsent {a x : String} {l : List String}
    (h : a ∈ insertIfAbsent x l) : a ∈ l ∨ a = x := by
  unfold insertIfAbsent at h
  by_cases hx : x ∈ l
  · simp [hx] at h
    exact Or.inl h
  · simp [hx] at h
    exact h

/-- The expected word itself is always among its valid answers. -/
theorem self_mem_valid_answers (E : String) : E ∈ valid_answers_pl E := by
  unfold valid_answers_pl
  rw [mem_sortByKey]
  have h1 :
      E ∈ (if _strip_accents E ≠ lowerStr E
           then insertIfAbsent (_strip_accents E) [E] else [E]) := by
    split
    · exact mem_insertIfAbsent_of_mem _ (by simp)
    · simp
  cases hn : _word_to_number_pl E with
  | none => simpa [hn] using h1
  | some n =>
    simp only [hn]
    exact mem_insertIfAbsent_of_mem _ h1

/-- A successful numeral lookup comes from an entry of the table. -/
theorem numLookup_mem {t : String} {v : Nat} :
    ∀ {l : List (String × Nat)}, numLookup t l = some v → (t, v) ∈ l := by
  intro l
  induction l with
  | nil => intro h; simp [numLookup] at h
  | cons kv rest ih =>
    intro h
    obtain ⟨k, w⟩ := kv
    unfold numLookup at h
    by_cases hk : t = k
    · simp only [hk, if_pos] at h
      cases h
      simp [hk]
    · simp only [hk, if_neg, not_false_eq_true] at h
      exact List.mem_cons_of_mem _ (ih h)

/-- Every key of the numeral table is a single whitespace-free word. -/
theorem num_keys_single :
    ∀ kv ∈ _NUM_WORD, splitWs kv.1 = [kv.1] := by decide

/-- The summing loop fails as soon as one word is unknown. -/
theorem sumParts_eq_none {ps : List String}
    (h : ∃ p ∈ ps, numLookup p _NUM_WORD = none) : sumParts ps = none := by
  induction ps with
  | nil => simp at h
  | cons q qs ih =>
    obtain ⟨p, hp, hnone⟩ := h
    unfold sumParts
    rcases List.mem_cons.mp hp with hq | hq
    · subst hq
      simp [hnone]
    · cases hl : numLookup q _NUM_WORD with
      | none => rfl
      | some v => simp [ih ⟨p, hq, hnone⟩]

/-- Claim C3: for every expected term E and input text T whose folded form
equals the folded form of E, `equals_relaxed` applied to T and
`valid_answers_pl E` returns true. -/
theorem c3_diacritic_insensitive (E T : String)
    (h : _strip_accents T = _strip_accents E) :
    equals_relaxed T (valid_answers_pl E) = true := by
  unfold equals_relaxed
  rw [List.any_eq_true]
  exact ⟨E, self_mem_valid_answers E, by simp [h]⟩

/-- Witness for C3 at E = "pięć", T = "PIEC". -/
theorem c3_witness :
    _strip_accents "PIEC" = _strip_accents "pięć" ∧
    equals_relaxed "PIEC" (valid_answers_pl "pięć") = true :=
  ⟨by decide, c3_diacritic_insensitive "pięć" "PIEC" (by decide)⟩

/-- Claim C5: every single word W recognised by the numeral table (keyed by
its folded form) with value V gets the decimal string of V among its valid
answers; in particular `valid_answers_pl "pięćdziesiąt"` contains "50" and
the no-diacritic literal "piecdziesiat". -/
theorem c5_numeral_digit_answer :
    (∀ (W : String) (V : Nat),
        numLookup (_strip_accents W) _NUM_WORD = some V →
        toString V ∈ valid_answers_pl W) ∧
    "50" ∈ valid_answers_pl "pięćdziesiąt" ∧
    "piecdziesiat" ∈ valid_answers_pl "pięćdziesiąt" := by
  refine ⟨?_, by decide, by decide⟩
  intro W V h
  have hw : _word_to_number_pl W = some V := by
    unfold _word_to_number_pl
    simp [h]
  simp only [valid_answers_pl, hw]
  rw [mem_sortByKey]
  exact mem_insertIfAbsent_self _ _

/-- Witness for C5 at W = "sto", V = 100. -/
theorem c5_witness :
    numLookup (_strip_accents "sto") _NUM_WORD = some 100 ∧
    toString (100 : Nat) ∈ valid_answers_pl "sto" :=
  ⟨by decide, c5_numeral_digit_answer.1 "sto" 100 (by decide)⟩

/-- Counterexample for C6: in "zero zero" every word is recognised by the
table (with value 0), yet `_word_to_number_pl` returns `none` — the zero sum
is conflated with "no numeral value", contradicting the claim that any fully
recognised phrase summing to 0 yields the value 0. -/
theorem c6_cex_zero_zero :
    (∀ p ∈ splitWs (_strip_accents "zero zero"),
        numLookup p _NUM_WORD = some 0) ∧
    splitWs (_strip_accents "zero zero") ≠ [] ∧
    _word_to_number_pl "zero zero" = none := by decide

/-- Claim C6 as amended: the parser returns 0 exactly through the direct
table lookup — any input whose folded form is a table key with value 0 (the
single word "zero" in any case/diacritic/whitespace variant) yields
`some 0`; but a multi-word phrase of recognised words summing to 0, such as
"zero zero", is treated as failure. -/
theorem c6_zero_direct_lookup :
    (∀ s : String, numLookup (_strip_accents s) _NUM_WORD = some 0 →
        _word_to_number_pl s = some 0) ∧
    _word_to_number_pl "zero" = some 0 ∧
    _word_to_number_pl "zero zero" = none := by
  refine ⟨?_, by decide, by decide⟩
  intro s h
  unfold _word_to_number_pl
  simp [h]

/-- Witness for C6 (amended) at s = "Zero". -/
theorem c6_witness :
    numLookup (_strip_accents "Zero") _NUM_WORD = some 0 ∧
    _word_to_number_pl "Zero" = some 0 :=
  ⟨by decide, c6_zero_direct_lookup.1 "Zero" (by decide)⟩

/-- Claim C8: when the selected pool (as built by `flat_items`) contains zero
usable pairs, `quiz_start` fails with the empty-pool error and no session is
created. -/
theorem c8_empty_pool (vocabulary : List (String × String))
    (categories : List (String × List String))
    (pool_keys : Option (List String))
    (shuffle : List (String × String) → List (String × String))
    (L : Nat) (dir : Direction) (st : BotState)
    (h : flat_items vocabulary categories pool_keys = []) :
    quiz_start shuffle L dir (flat_items vocabulary categories pool_keys) st
      = .error .emptyPool ∧
    ∀ st', quiz_start shuffle L dir (flat_items vocabulary categories pool_keys) st
      ≠ .ok st' := by
  rw [h]
  refine ⟨by simp [quiz_start], ?_⟩
  intro st'
  simp [quiz_start]

/-- Witness for C8: a category whose only word is missing from the
vocabulary yields zero usable pairs and the empty-pool error. -/
theorem c8_witness :
    flat_items [] [("kolory", ["czerwony"])] (some ["kolory"]) = [] ∧
    quiz_start id 10 Direction.pl_ru
      (flat_items [] [("kolory", ["czerwony"])] (some ["kolory"]))
      { session := none, stats := ⟨0, 0, 0⟩ } = .error .emptyPool :=
  ⟨by decide,
   (c8_empty_pool [] [("kolory", ["czerwony"])] (some ["kolory"]) id 10
      Direction.pl_ru { session := none, stats := ⟨0, 0, 0⟩ } (by decide)).1⟩

/-- Claim C9: with no active session, `on_answer` and `skip_q` both fail
with the no-active-session error. -/
theorem c9_no_active_session (st : BotState) (valid : List String)
    (t : String) (h : st.session = none) :
    on_answer valid t st = .error .noActiveSession ∧
    skip_q st = .error .noActiveSession := by
  unfold on_answer skip_q
  rw [h]
  exact ⟨rfl, rfl⟩

/-- Witness for C9 on a fresh user state with no session. -/
theorem c9_witness :
    on_answer [] "x" { session := none, stats := ⟨0, 0, 0⟩ }
      = .error .noActiveSession ∧
    skip_q { session := none, stats := ⟨0, 0, 0⟩ }
      = .error .noActiveSession :=
  c9_no_active_session { session := none, stats := ⟨0, 0, 0⟩ } [] "x" rfl

/-- A folded phrase that splits into two or more words is never itself a key
of the numeral table (every key is a single whitespace-free word). -/
theorem numLookup_none_of_multiword {t : String}
    (h2 : 2 ≤ (splitWs t).length) : numLookup t _NUM_WORD = none := by
  cases hl : numLookup t _NUM_WORD with
  | none => rfl
  | some v =>
    have hsingle := num_keys_single (t, v) (numLookup_mem hl)
    rw [hsingle] at h2
    simp at h2

/-- Claim C7: a multi-word phrase is summed word-by-word over the numeral
table; if any word is unrecognised the whole phrase yields no numeral value
(never a partial sum) and `valid_answers_pl` adds no digit-form answer — its
members are only the expected string and its folded form. -/
theorem c7_multiword_numerals (s : String) :
    (∀ tot : Nat, 2 ≤ (splitWs (_strip_accents s)).length →
        sumParts (splitWs (_strip_accents s)) = some tot → tot ≠ 0 →
        _word_to_number_pl s = some tot) ∧
    ((∃ p ∈ splitWs (_strip_accents s), numLookup p _NUM_WORD = none) →
        _word_to_number_pl s = none ∧
        ∀ a ∈ valid_answers_pl s, a = s ∨ a = _strip_accents s) := by
  constructor
  · intro tot h2 hsum hnz
    have hlook := numLookup_none_of_multiword h2
    have hne : splitWs (_strip_accents s) ≠ [] := by
      intro he
      rw [he] at h2
      simp at h2
    simp [_word_to_number_pl, hlook, hne, hsum, hnz]
  · intro hex
    have hnone : _word_to_number_pl s = none := by
      cases hl : numLookup (_strip_accents s) _NUM_WORD with
      | some v =>
        exfalso
        obtain ⟨p, hp, hpnone⟩ := hex
        have hsingle := num_keys_single (_strip_accents s, v) (numLookup_mem hl)
        rw [hsingle] at hp
        simp at hp
        rw [hp] at hpnone
        rw [hpnone] at hl
        exact Option.noConfusion hl
      | none =>
        by_cases hne : splitWs (_strip_accents s) = []
        · simp [_word_to_number_pl, hl, hne]
        · simp [_word_to_number_pl, hl, hne, sumParts_eq_none hex]
    refine ⟨hnone, ?_⟩
    intro a ha
    simp only [valid_answers_pl, hnone] at ha
    rw [mem_sortByKey] at ha
    rcases hc : decide (_strip_accents s ≠ lowerStr s) with _ | _
    · rw [if_neg (of_decide_eq_false hc)] at ha
      simp at ha
      exact Or.inl ha
    · rw [if_pos (of_decide_eq_true hc)] at ha
      rcases mem_of_mem_insertIfAbsent ha with hin | hin
      · simp at hin
        exact Or.inl hin
      · exact Or.inr hin

/-- Witness for C7 at the two-word numeral "dwadzieścia pięć" (25). -/
theorem c7_witness :
    2 ≤ (splitWs (_strip_accents "dwadzieścia pięć")).length ∧
    sumParts (splitWs (_strip_accents "dwadzieścia pięć")) = some 25 ∧
    _word_to_number_pl "dwadzieścia pięć" = some 25 :=
  ⟨by decide, by decide,
   (c7_multiword_numerals "dwadzieścia pięć").1 25 (by decide) (by decide)
     (by decide)⟩

/-- Claim C1: starting a quiz on a non-empty pool creates a session whose
word list is the prefix of the shuffled pool of length min(L, |pool|), drawn
only from the pool with no new duplicates, with index and score zero. -/
theorem c1_start_session (pool : List (String × String))
    (shuffle : List (String × String) → List (String × String))
    (L : Nat) (dir : Direction) (st : BotState)
    (hne : pool ≠ []) (hperm : (shuffle pool).Perm pool) :
    ∃ sess : Session,
      quiz_start shuffle L dir pool st = .ok { st with session := some sess } ∧
      sess.words = (shuffle pool).take (min L pool.length) ∧
      sess.words.length = min L pool.length ∧
      List.IsPrefix sess.words (shuffle pool) ∧
      (∀ x ∈ sess.words, x ∈ pool) ∧
      (∀ x, sess.words.count x ≤ pool.count x) ∧
      sess.current_question = 0 ∧ sess.score = 0 ∧
      sess.total = sess.words.length ∧ sess.direction = dir := by
  refine ⟨{ words := (shuffle pool).take (min L pool.length),
            current_question := 0, score := 0,
            total := ((shuffle pool).take (min L pool.length)).length,
            direction := dir }, ?_, rfl, ?_, ?_, ?_, ?_, rfl, rfl, rfl, rfl⟩
  · unfold quiz_start
    rw [if_neg hne]
  · rw [List.length_take, hperm.length_eq]
    exact Nat.min_eq_left (Nat.min_le_right L pool.length)
  · exact List.take_prefix _ _
  · intro x hx
    exact hperm.subset ((List.take_sublist _ _).subset hx)
  · intro x
    show List.count x (List.take (min L pool.length) (shuffle pool))
      ≤ List.count x pool
    have h1 := (List.take_sublist (min L pool.length) (shuffle pool)).count_le x
    have h2 : List.count x (shuffle pool) = List.count x pool :=
      hperm.countP_eq _
    exact le_trans h1 (le_of_eq h2)

/-- Witness for C1 on the one-pair pool [("tak", "да")] with the identity
shuffle and requested length 5. -/
theorem c1_witness :
    ∃ sess : Session,
      quiz_start id 5 Direction.ru_pl [("tak", "да")]
          { session := none, stats := ⟨0, 0, 0⟩ }
        = .ok { session := some sess, stats := ⟨0, 0, 0⟩ } ∧
      sess.words = (id [("tak", "да")]).take (min 5 [("tak", "да")].length) ∧
      sess.words.length = min 5 [("tak", "да")].length ∧
      List.IsPrefix sess.words (id [("tak", "да")]) ∧
      (∀ x ∈ sess.words, x ∈ [("tak", "да")]) ∧
      (∀ x, sess.words.count x ≤ [("tak", "да")].count x) ∧
      sess.current_question = 0 ∧ sess.score = 0 ∧
      sess.total = sess.words.length ∧ sess.direction = Direction.ru_pl :=
  c1_start_session [("tak", "да")] id 5 Direction.ru_pl
    { session := none, stats := ⟨0, 0, 0⟩ } (by decide) (List.Perm.refl _)

/-- One interaction on an active session: both handlers advance the index by
one, keep the total, and finish the quiz (destroying the session and
incrementing the quiz counter) exactly when the new index reaches the
total. -/
theorem quiz_step_active (i : QInput) (st : BotState) (sess : Session)
    (hs : st.session = some sess) :
    ∃ st₁, quiz_step i st = .ok st₁ ∧
      (sess.total ≤ sess.current_question + 1 →
        st₁.session = none ∧
        st₁.stats.quiz_count = st.stats.quiz_count + 1) ∧
      (¬ sess.total ≤ sess.current_question + 1 →
        st₁.stats.quiz_count = st.stats.quiz_count ∧
        ∃ sess₁, st₁.session = some sess₁ ∧
          sess₁.current_question = sess.current_question + 1 ∧
          sess₁.total = sess.total) := by
  cases i with
  | ans t =>
    unfold quiz_step on_answer
    rw [hs]
    by_cases hfin : sess.total ≤ sess.current_question + 1
    · refine ⟨_, by simp only [hfin, if_pos]; rfl, ?_, ?_⟩
      · intro _
        constructor <;> simp [finish_quiz, update_user_score]
      · intro h
        exact absurd hfin h
    · refine ⟨_, by simp only [hfin, if_neg, not_false_eq_true]; rfl, ?_, ?_⟩
      · intro h
        exact absurd h hfin
      · intro _
        exact ⟨by simp [update_user_score], _, rfl, rfl, rfl⟩
  | skip =>
    unfold quiz_step skip_q
    rw [hs]
    by_cases hfin : sess.total ≤ sess.current_question + 1
    · refine ⟨_, by simp only [hfin, if_pos]; rfl, ?_, ?_⟩
      · intro _
        constructor <;> simp [finish_quiz]
      · intro h
        exact absurd hfin h
    · refine ⟨_, by simp only [hfin, if_neg, not_false_eq_true]; rfl, ?_, ?_⟩
      · intro h
        exact absurd h hfin
      · intro _
        exact ⟨rfl, _, rfl, rfl, rfl⟩

/-- Running interactions on an active session advances the index one-for-one
and finishes exactly when the index reaches the total. -/
theorem runSteps_advance (L : List QInput) :
    ∀ (st : BotState) (sess : Session),
      st.session = some sess →
      sess.current_question < sess.total →
      sess.current_question + L.length ≤ sess.total →
      ∃ st', runSteps L st = .ok st' ∧
        (sess.current_question + L.length < sess.total →
          ∃ sess', st'.session = some sess' ∧
            sess'.current_question = sess.current_question + L.length ∧
            sess'.total = sess.total ∧
            st'.stats.quiz_count = st.stats.quiz_count) ∧
        (sess.current_question + L.length = sess.total →
          st'.session = none ∧
          st'.stats.quiz_count = st.stats.quiz_count + 1) := by
  induction L with
  | nil =>
    intro st sess hs hlt _
    refine ⟨st, rfl, ?_, ?_⟩
    · intro _
      exact ⟨sess, hs, by simp, rfl, rfl⟩
    · intro heq
      simp at heq
      omega
  | cons i is ih =>
    intro st sess hs hlt hle
    obtain ⟨st₁, hstep, hfin, hcont⟩ := quiz_step_active i st sess hs
    by_cases hreach : sess.total ≤ sess.current_question + 1
    · have heq : sess.current_question + 1 = sess.total := by omega
      have hlen : is.length = 0 := by
        simp only [List.length_cons] at hle
        omega
      have hisnil : is = [] := List.length_eq_zero.mp hlen
      obtain ⟨hnone, hqc⟩ := hfin hreach
      refine ⟨st₁, ?_, ?_, ?_⟩
      · rw [hisnil]
        simp [runSteps, hstep]
      · intro hlt2
        simp only [List.length_cons] at hlt2
        omega
      · intro _
        exact ⟨hnone, hqc⟩
    · obtain ⟨hqc, sess₁, hs₁, hcur₁, htot₁⟩ := hcont hreach
      have hlt₁ : sess₁.current_question < sess₁.total := by omega
      have hle₁ : sess₁.current_question + is.length ≤ sess₁.total := by
        simp only [List.length_cons] at hle
        omega
      obtain ⟨st', hrun, h₁, h₂⟩ := ih st₁ sess₁ hs₁ hlt₁ hle₁
      refine ⟨st', ?_, ?_, ?_⟩
      · simp [runSteps, hstep, hrun]
      · intro hlt2
        simp only [List.length_cons] at hlt2 ⊢
        obtain ⟨sess', hms, hcur, htot, hq⟩ := h₁ (by omega)
        exact ⟨sess', hms, by omega, by omega, by omega⟩
      · intro heq2
        simp only [List.length_cons] at heq2 ⊢
        obtain ⟨hnone, hq⟩ := h₂ (by omega)
        exact ⟨hnone, by omega⟩

/-- Claim C2: starting from a freshly created session of total T ≥ 1, after
N ≤ T interactions (answers right or wrong, or skips) the index equals N,
and the session finishes — `finish_quiz` runs (the quiz counter increments)
and the session is destroyed — exactly when N = T, never earlier. -/
theorem c2_advance_exactly (L : List QInput) (st : BotState)
    (sess : Session) (hs : st.session = some sess)
    (h0 : sess.current_question = 0) (h1 : 1 ≤ sess.total)
    (hle : L.length ≤ sess.total) :
    ∃ st', runSteps L st = .ok st' ∧
      (L.length < sess.total →
        ∃ sess', st'.session = some sess' ∧
          sess'.current_question = L.length ∧ sess'.total = sess.total ∧
          st'.stats.quiz_count = st.stats.quiz_count) ∧
      (L.length = sess.total →
        st'.session = none ∧
        st'.stats.quiz_count = st.stats.quiz_count + 1) := by
  obtain ⟨st', hrun, hlt, heq⟩ :=
    runSteps_advance L st sess hs (by omega) (by omega)
  refine ⟨st', hrun, ?_, ?_⟩
  · intro h
    obtain ⟨sess', hms, hcur, htot, hq⟩ := hlt (by omega)
    exact ⟨sess', hms, by omega, htot, hq⟩
  · intro h
    exact heq (by omega)

/-- Witness for C2: a two-question session run with one skip and one typed
answer reaches the finished state. -/
theorem c2_witness :
    ∃ st', runSteps [QInput.skip, QInput.ans "q"]
        { session := some { words := [("a", "b"), ("c", "d")],
                            current_question := 0, score := 0, total := 2,
                            direction := Direction.ru_pl },
          stats := ⟨0, 0, 0⟩ } = .ok st' ∧
      ((2 : Nat) < 2 →
        ∃ sess', st'.session = some sess' ∧
          sess'.current_question = 2 ∧ sess'.total = 2 ∧
          st'.stats.quiz_count = 0) ∧
      ((2 : Nat) = 2 →
        st'.session = none ∧ st'.stats.quiz_count = 0 + 1) :=
  c2_advance_exactly [QInput.skip, QInput.ans "q"]
    { session := some { words := [("a", "b"), ("c", "d")],
                        current_question := 0, score := 0, total := 2,
                        direction := Direction.ru_pl },
      stats := ⟨0, 0, 0⟩ }
    { words := [("a", "b"), ("c", "d")], current_question := 0, score := 0,
      total := 2, direction := Direction.ru_pl }
    rfl rfl (by decide) (by decide)

/-- Counterexample for C4: for the session started with the identity shuffle
on the scenario pool in the forward (pl → ru) direction, the accepted-answer
list of the first question is ["one", "1"] — because "jeden" is a numeral,
its digit form "1" is also accepted — not exactly ["one"] as claimed. -/
theorem c4_cex_accepted_set :
    quiz_start id 3 Direction.pl_ru
      [("jeden", "one"), ("dwa", "two"), ("trzy", "three")]
      { session := none, stats := ⟨0, 0, 0⟩ }
      = .ok { session := some
                { words := [("jeden", "one"), ("dwa", "two"), ("trzy", "three")],
                  current_question := 0, score := 0, total := 3,
                  direction := Direction.pl_ru },
              stats := ⟨0, 0, 0⟩ } ∧
    question_valid
      { words := [("jeden", "one"), ("dwa", "two"), ("trzy", "three")],
        current_question := 0, score := 0, total := 3,
        direction := Direction.pl_ru } = ["one", "1"] ∧
    (["one", "1"] : List String) ≠ ["one"] :=
  ⟨rfl, by decide, by decide⟩

/-- Claim C4 as amended: in the scenario session the first question displays
"jeden", its accepted-answer set is ["one", "1"] (the translation plus the
digit form of the numeral), "One" is graded correct case-insensitively, and
after three interactions of any correctness the session of total 3 finishes
(is destroyed). -/
theorem c4_amended_scenario :
    quiz_start id 3 Direction.pl_ru
      [("jeden", "one"), ("dwa", "two"), ("trzy", "three")]
      { session := none, stats := ⟨0, 0, 0⟩ }
      = .ok { session := some
                { words := [("jeden", "one"), ("dwa", "two"), ("trzy", "three")],
                  current_question := 0, score := 0, total := 3,
                  direction := Direction.pl_ru },
              stats := ⟨0, 0, 0⟩ } ∧
    question_display
      { words := [("jeden", "one"), ("dwa", "two"), ("trzy", "three")],
        current_question := 0, score := 0, total := 3,
        direction := Direction.pl_ru } = some "jeden" ∧
    question_valid
      { words := [("jeden", "one"), ("dwa", "two"), ("trzy", "three")],
        current_question := 0, score := 0, total := 3,
        direction := Direction.pl_ru } = ["one", "1"] ∧
    equals_relaxed "One"
      (question_valid
        { words := [("jeden", "one"), ("dwa", "two"), ("trzy", "three")],
          current_question := 0, score := 0, total := 3,
          direction := Direction.pl_ru }) = true ∧
    (runSteps [QInput.ans "One", QInput.ans "zzz", QInput.skip]
        { session := some
            { words := [("jeden", "one"), ("dwa", "two"), ("trzy", "three")],
              current_question := 0, score := 0, total := 3,
              direction := Direction.pl_ru },
          stats := ⟨0, 0, 0⟩ }).toOption.map (fun st => st.session)
      = some none :=
  ⟨rfl, rfl, by decide, by decide, rfl⟩

/-- Counterexample for C10: on a two-question session with the
guaranteed-incorrect input "xyz", `skip_q` leaves the user statistics
untouched while `on_answer` increments total_questions — so the two
operations do not produce the same per-user state including UserStats. -/
theorem c10_cex_stats :
    equals_relaxed "xyz"
      (question_valid
        { words := [("jeden", "one"), ("dwa", "two")],
          current_question := 0, score := 0, total := 2,
          direction := Direction.pl_ru }) = false ∧
    (skip_q
        { session := some
            { words := [("jeden", "one"), ("dwa", "two")],
              current_question := 0, score := 0, total := 2,
              direction := Direction.pl_ru },
          stats := ⟨0, 0, 0⟩ }).toOption.map
      (fun st => st.stats.total_questions) = some 0 ∧
    (on_answer
        (question_valid
          { words := [("jeden", "one"), ("dwa", "two")],
            current_question := 0, score := 0, total := 2,
            direction := Direction.pl_ru })
        "xyz"
        { session := some
            { words := [("jeden", "one"), ("dwa", "two")],
              current_question := 0, score := 0, total := 2,
              direction := Direction.pl_ru },
          stats := ⟨0, 0, 0⟩ }).toOption.map
      (fun st => st.stats.total_questions) = some 1 :=
  ⟨by decide, rfl, rfl⟩

/-- Claim C10 as amended: on an active session, `skip_q` agrees with
`on_answer` on a guaranteed-incorrect input in the session fields (score
unchanged, index advanced, same finish transition) — the only difference is
that `on_answer` additionally increments UserStats.total_questions by one. -/
theorem c10_skip_equiv_wrong_answer (st : BotState) (sess : Session)
    (valid : List String) (input : String)
    (hs : st.session = some sess)
    (hw : equals_relaxed input valid = false) :
    on_answer valid input st =
      (skip_q st).map (fun st' =>
        { st' with stats :=
            { st'.stats with
              total_questions := st'.stats.total_questions + 1 } }) := by
  unfold on_answer skip_q
  rw [hs]
  by_cases hfin : sess.total ≤ sess.current_question + 1
  · simp [hw, hfin, update_user_score, finish_quiz, Except.map]
  · simp [hw, hfin, update_user_score, finish_quiz, Except.map]

/-- Witness for C10 (amended) on a concrete two-question session and the
incorrect input "no". -/
theorem c10_witness :
    equals_relaxed "no" ["one"] = false ∧
    on_answer ["one"] "no"
      { session := some
          { words := [("jeden", "one"), ("dwa", "two")],
            current_question := 0, score := 0, total := 2,
            direction := Direction.pl_ru },
        stats := ⟨0, 0, 0⟩ } =
      (skip_q
          { session := some
              { words := [("jeden", "one"), ("dwa", "two")],
                current_question := 0, score := 0, total := 2,
                direction := Direction.pl_ru },
            stats := ⟨0, 0, 0⟩ }).map (fun st' =>
        { st' with stats :=
            { st'.stats with
              total_questions := st'.stats.total_questions + 1 } }) :=
  ⟨by decide,
   c10_skip_equiv_wrong_answer
     { session := some
         { words := [("jeden", "one"), ("dwa", "two")],
           current_question := 0, score := 0, total := 2,
           direction := Direction.pl_ru },
       stats := ⟨0, 0, 0⟩ }
     { words := [("jeden", "one"), ("dwa", "two")],
       current_question := 0, score := 0, total := 2,
       direction := Direction.pl_ru }
     ["one"] "no" rfl (by decide)⟩
